import Mathlib

/-!
Verification of the generic bounded worker pool from
`pkg/concurrency/workerpool/pool.go` (package `workerpool`).

The Go code is a concurrent program: several worker goroutines share a
bounded task channel and a bounded result channel, coordinated by a
cancellable context.  We embed it as an explicit small-step transition
system:

* `GoChan` models a buffered Go channel (FIFO buffer, closed flag,
  capacity).
* `WorkerPhase` models the program counter of one worker goroutine
  spawned by `Start` (lines 54-102 of pool.go).
* `WorkerPool` is the whole state: both channels, the lifecycle context
  (`parentDone` for the caller-supplied context, `cancelled` for the
  pool's own `cancel`), the worker list, plus ghost bookkeeping
  (`received`, `published`, `accepted`) that records what external
  observers saw.
* `PoolAction` enumerates the atomic steps of the program: each constructor
  corresponds to one commit point of the Go source (a resolved `select`
  case, a channel operation, or one sequential segment of `Stop` /
  `GracefulStop`).  `step` gives the semantics of one action;
  `runTrace` folds a schedule (an interleaving chosen by the Go
  scheduler) over the state.

Go-specific semantics that matter and are modelled faithfully:

* `select` chooses uniformly among *ready* cases, so when
  `<-ctx.Done()` and another communication are both ready, either may
  fire.  Hence e.g. `Submit`'s send case may win even after
  cancellation.  Each resolved choice is its own `PoolAction`.
* Receiving from a closed channel first drains the buffer, delivering
  the buffered elements with `ok == true`; `ok == false` only once the
  buffer is empty.
* Closing an already-closed channel, and sending on a closed channel,
  panic at runtime (`StepRes.goPanic`).
-/

/-- Go `error` values that occur in pool.go: an error returned by the
caller's task function (opaque payload), the error built by
`fmt.Errorf("panic in worker: %v", r)`, and `context.Canceled` as
returned by `ctx.Err()` after cancellation. -/
inductive GoError where
  | taskErr (msg : String)
  | panicMsg (msg : String)
  | ctxCanceled
deriving DecidableEq

/-- pool.go lines 10-14: `Result[R]` holds the value of a task and a
possible error.  Note that the Go type is a product of both fields, not
a sum. -/
structure Result (R : Type) where
  Value : R
  Err : Option GoError
deriving DecidableEq

/-- Outcome of invoking the caller-supplied task function
`workerFunc(ctx, task)`: either a normal return of a value and an
optional error, or a panic raised during execution (with the textual
form of the panic value). -/
inductive ExecResult (R : Type) where
  | normal (val : R) (err : Option GoError)
  | panicked (msg : String)
deriving DecidableEq

/-- pool.go lines 74-97: the panic-isolating wrapper around
`workerFunc`.  A normal return `(result, err)` is packaged as
`Result[R]{Value: result, Err: err}` (line 94); a recovered panic is
packaged as `Result[R]{Err: fmt.Errorf("panic in worker: %v", r)}`
(lines 76-83), whose `Value` field is the zero value of `R`
(`default`). -/
def handleExec {R : Type} [Inhabited R] : ExecResult R → Result R
  | .normal v e => ⟨v, e⟩
  | .panicked m => ⟨default, some (.panicMsg ("panic in worker: " ++ m))⟩

/-- A buffered Go channel: FIFO buffer (head = oldest element), closed
flag, and the capacity it was created with by `make(chan T, cap)`. -/
structure GoChan (α : Type) where
  buf : List α
  closed : Bool
  cap : Nat
deriving DecidableEq

/-- pool.go lines 165-176 / 181-192 / 197-208: the pre-close check
used by `Stop` and `GracefulStop`:

```
select {
case _, ok := <-ch:
    if ok { close(ch) }
default:
    close(ch)
}
```

Semantics of the Go construct: if the buffer is non-empty the receive
case is ready and delivers the head element with `ok == true` (whether
or not the channel is closed!), the element is discarded, and `close`
is attempted - a panic (`none`) if the channel was in fact already
closed.  If the buffer is empty and the channel is closed, the receive
is ready with `ok == false` and the close is skipped.  If the buffer is
empty and the channel is open, no case is ready, the `default` branch
runs and closes the channel. -/
def checkClose {α : Type} (c : GoChan α) : Option (GoChan α) :=
  match c.buf with
  | _ :: rest => if c.closed then none else some { c with buf := rest, closed := true }
  | [] => if c.closed then some c else some { c with closed := true }

/-- Program counter of one worker goroutine (pool.go lines 58-100):
blocked in the outer `select` (`idle`), executing `workerFunc` on a
dequeued task (`running`), blocked in a publish `select` holding the
`Result` to send (`publishing`, covering both the normal send at line
94 and the recover-path send at line 82), or returned (`exited`). -/
inductive WorkerPhase (T R : Type) where
  | idle
  | running (task : T)
  | publishing (res : Result R)
  | exited
deriving DecidableEq

/-- pool.go lines 17-24: the pool state, together with ghost
observation fields.

* `parentDone`: the caller-supplied context `cxt` has been cancelled.
* `cancelled`: the pool's own `cancel` (from `context.WithCancel`) has
  been called.
* `workers`: one `WorkerPhase` per goroutine spawned by `Start`
  (`sync.WaitGroup` completion is `allExited`).
* Ghost fields (not Go state, pure bookkeeping of observable events):
  `received` = results taken off `resultChan` by consumers of
  `GetResults`, in order; `published` = every `Result` ever
  successfully sent on `resultChan`, in order; `accepted` = number of
  `Submit` calls that returned `true`. -/
structure WorkerPool (T R : Type) where
  taskChan : GoChan T
  resultChan : GoChan (Result R)
  parentDone : Bool
  cancelled : Bool
  numWorkers : Int
  workers : List (WorkerPhase T R)
  received : List (Result R)
  published : List (Result R)
  accepted : Nat
deriving DecidableEq

/-- `wp.ctx.Done()` is closed: the internal context derives from the
caller's context via `context.WithCancel(cxt)` (pool.go line 34), so it
is done as soon as either the parent is cancelled or `cancel` was
called. -/
def ctxDone {T R : Type} (s : WorkerPool T R) : Bool :=
  s.parentDone || s.cancelled

/-- `wp.ctx.Err()`: `nil` while the context is live, `context.Canceled`
once done. -/
def ctxErr {T R : Type} (s : WorkerPool T R) : Option GoError :=
  if ctxDone s then some .ctxCanceled else none

/-- pool.go lines 27-43, `NewWorkerPool`: worker count defaults to
`runtime.NumCPU()` with a floor of 1; both channels are created with
capacity `taskBuffer`; the lifecycle context is a cancellable child of
the caller-supplied context.  `numCPU` is the host's logical CPU count,
a parameter of the model; `parentDone` is the state of the caller's
context. -/
def NewWorkerPool {T R : Type} (numCPU : Int) (parentDone : Bool) (taskBuffer : Nat) :
    WorkerPool T R :=
  { taskChan := ⟨[], false, taskBuffer⟩
    resultChan := ⟨[], false, taskBuffer⟩
    parentDone := parentDone
    cancelled := false
    numWorkers := if numCPU < 1 then 1 else numCPU
    workers := []
    received := []
    published := []
    accepted := 0 }

/-- pool.go lines 46-51, `WithWorkers`: sets the worker count if
`n > 0`, otherwise leaves it unchanged; returns the pool (the Go method
returns the receiver pointer for chaining). -/
def WithWorkers {T R : Type} (p : WorkerPool T R) (n : Int) : WorkerPool T R :=
  if n > 0 then { p with numWorkers := n } else p

/-- pool.go lines 54-57, `Start`: spawns `numWorkers` goroutines, each
starting at the top of the worker loop (`idle`).  The loop body itself
is given by the worker actions of `step`. -/
def start {T R : Type} (p : WorkerPool T R) : WorkerPool T R :=
  { p with workers := List.replicate p.numWorkers.toNat .idle }

/-- pool.go lines 119-125, the entry of `SubmitWait`: before touching
any channel it checks `wp.ctx.Err() != nil` and, if the context is
already done, returns `(zero value, ctx.Err())` without submitting the
task or invoking the task function.  `earlyErr` is that deterministic
early return; `proceeds` means execution reaches the submit `select`
(line 131). -/
inductive SubmitWaitEntry (R : Type) where
  | earlyErr (e : GoError)
  | proceeds
deriving DecidableEq

def submitWaitCheck {T R : Type} (s : WorkerPool T R) : SubmitWaitEntry R :=
  match ctxErr s with
  | some e => .earlyErr e
  | none => .proceeds

def isExited {T R : Type} : WorkerPhase T R → Bool
  | .exited => true
  | _ => false

def isRunning {T R : Type} : WorkerPhase T R → Bool
  | .running _ => true
  | _ => false

/-- `wp.wg.Wait()` has returned: every spawned worker goroutine has
finished. -/
def allExited {T R : Type} (s : WorkerPool T R) : Bool :=
  s.workers.all isExited

/-- Number of tasks currently mid-execution inside the task function. -/
def runningCount {T R : Type} (s : WorkerPool T R) : Nat :=
  s.workers.countP isRunning

/-- Atomic steps of the system.  Each constructor is one commit point
of pool.go; worker actions carry the index of the goroutine.

* `submitOk t`: `Submit` (lines 106-115) resolves its `select` by the
  send case - legal whenever the send is ready, even if the context is
  also done (Go `select` picks among ready cases at random).
* `submitFail`: `Submit` resolves by the `<-ctx.Done()` case and
  returns `false`.
* `submitHandoff t i`: with an unbuffered task channel the send
  rendezvouses directly with worker `i` blocked in its dequeue.
* `parentCancel`: the caller cancels the context it passed to
  `NewWorkerPool`.
* `workerDequeue i`: worker `i`'s outer `select` (lines 62-71) takes a
  buffered task (again legal even when the context is done).
* `workerObserveDone i`: the outer `select` takes `<-ctx.Done()` and
  the goroutine returns (line 65).
* `workerObserveClosed i`: the dequeue sees the task channel closed and
  drained (`ok == false`) and the goroutine returns (line 70).
* `workerRun i`: `workerFunc(ctx, task)` runs to its outcome inside the
  panic-isolating wrapper; the worker now holds the `Result` to
  publish.
* `workerPublish i`: the publish `select` (lines 79-83 or 91-96) sends
  the result into the buffer.
* `workerPublishHandoff i`: unbuffered result channel - the result goes
  straight to a consumer.
* `workerDropResult i`: the publish `select` takes `<-ctx.Done()`; the
  result is dropped and the inner function returns, so the worker is
  back at the top of its loop.
* `consumerRecv`: a consumer of `GetResults` (line 156-158) takes a
  buffered result.
* `stopCancel`: `Stop` line 162, `wp.cancel()`.
* `stopFinish`: `Stop` lines 163-176: `wp.wg.Wait()` has returned
  (requires `allExited`) and the result-channel pre-close check runs.
* `gracefulCloseTask`: `GracefulStop` lines 181-192: the task-channel
  pre-close check runs.
* `gracefulFinish`: `GracefulStop` lines 194-208: `wg.Wait()` has
  returned, `cancel()` is called, and the result-channel pre-close
  check runs. -/
inductive PoolAction (T R : Type) where
  | submitOk (t : T)
  | submitFail
  | submitHandoff (t : T) (i : Nat)
  | parentCancel
  | workerDequeue (i : Nat)
  | workerObserveDone (i : Nat)
  | workerObserveClosed (i : Nat)
  | workerRun (i : Nat)
  | workerPublish (i : Nat)
  | workerPublishHandoff (i : Nat)
  | workerDropResult (i : Nat)
  | consumerRecv
  | stopCancel
  | stopFinish
  | gracefulCloseTask
  | gracefulFinish
deriving DecidableEq

/-- Result of attempting one atomic step: the next state, "this action
is not enabled in this state" (the corresponding goroutine is blocked
or the guard fails), or a Go runtime panic (close of a closed channel,
send on a closed channel). -/
inductive StepRes (σ : Type) where
  | next (s : σ)
  | notEnabled
  | goPanic
deriving DecidableEq

/-- Semantics of one atomic step.  `f` is the caller-supplied task
function: it receives the done-status of the context it is handed
(`wp.ctx`, pool.go line 88) and the task, and yields the outcome of its
execution. -/
def step {T R : Type} [Inhabited R] (f : Bool → T → ExecResult R)
    (s : WorkerPool T R) : PoolAction T R → StepRes (WorkerPool T R)
  | .submitOk t =>
      if s.taskChan.closed then .goPanic
      else if s.taskChan.buf.length < s.taskChan.cap then
        .next { s with taskChan := { s.taskChan with buf := s.taskChan.buf ++ [t] }
                       accepted := s.accepted + 1 }
      else .notEnabled
  | .submitFail =>
      if ctxDone s then .next s else .notEnabled
  | .submitHandoff t i =>
      if s.taskChan.closed then .goPanic
      else if s.taskChan.cap = 0 then
        match s.workers[i]? with
        | some .idle =>
            .next { s with workers := s.workers.set i (.running t)
                           accepted := s.accepted + 1 }
        | _ => .notEnabled
      else .notEnabled
  | .parentCancel => .next { s with parentDone := true }
  | .workerDequeue i =>
      match s.workers[i]?, s.taskChan.buf with
      | some .idle, t :: rest =>
          .next { s with workers := s.workers.set i (.running t)
                         taskChan := { s.taskChan with buf := rest } }
      | _, _ => .notEnabled
  | .workerObserveDone i =>
      match s.workers[i]? with
      | some .idle =>
          if ctxDone s then .next { s with workers := s.workers.set i .exited }
          else .notEnabled
      | _ => .notEnabled
  | .workerObserveClosed i =>
      match s.workers[i]? with
      | some .idle =>
          if s.taskChan.closed && s.taskChan.buf.isEmpty then
            .next { s with workers := s.workers.set i .exited }
          else .notEnabled
      | _ => .notEnabled
  | .workerRun i =>
      match s.workers[i]? with
      | some (.running t) =>
          .next { s with workers := s.workers.set i (.publishing (handleExec (f (ctxDone s) t))) }
      | _ => .notEnabled
  | .workerPublish i =>
      match s.workers[i]? with
      | some (.publishing r) =>
          if s.resultChan.closed then .goPanic
          else if s.resultChan.buf.length < s.resultChan.cap then
            .next { s with workers := s.workers.set i .idle
                           resultChan := { s.resultChan with buf := s.resultChan.buf ++ [r] }
                           published := s.published ++ [r] }
          else .notEnabled
      | _ => .notEnabled
  | .workerPublishHandoff i =>
      match s.workers[i]? with
      | some (.publishing r) =>
          if s.resultChan.closed then .goPanic
          else if s.resultChan.cap = 0 then
            .next { s with workers := s.workers.set i .idle
                           received := s.received ++ [r]
                           published := s.published ++ [r] }
          else .notEnabled
      | _ => .notEnabled
  | .workerDropResult i =>
      match s.workers[i]? with
      | some (.publishing _) =>
          if ctxDone s then .next { s with workers := s.workers.set i .idle }
          else .notEnabled
      | _ => .notEnabled
  | .consumerRecv =>
      match s.resultChan.buf with
      | r :: rest =>
          .next { s with resultChan := { s.resultChan with buf := rest }
                         received := s.received ++ [r] }
      | [] => .notEnabled
  | .stopCancel => .next { s with cancelled := true }
  | .stopFinish =>
      if allExited s then
        match checkClose s.resultChan with
        | some c => .next { s with resultChan := c }
        | none => .goPanic
      else .notEnabled
  | .gracefulCloseTask =>
      match checkClose s.taskChan with
      | some c => .next { s with taskChan := c }
      | none => .goPanic
  | .gracefulFinish =>
      if allExited s then
        match checkClose s.resultChan with
        | some c => .next { s with cancelled := true, resultChan := c }
        | none => .goPanic
      else .notEnabled

/-- Run a schedule: a sequence of atomic steps chosen by the Go
scheduler.  Stops at the first blocked action or runtime panic. -/
def runTrace {T R : Type} [Inhabited R] (f : Bool → T → ExecResult R)
    (s : WorkerPool T R) : List (PoolAction T R) → StepRes (WorkerPool T R)
  | [] => .next s
  | a :: rest =>
      match step f s a with
      | .next s' => runTrace f s' rest
      | .notEnabled => .notEnabled
      | .goPanic => .goPanic

/-- Final state of a schedule, if it ran to completion without blocking
or panicking. -/
def afterRun {T R : Type} [Inhabited R] (f : Bool → T → ExecResult R)
    (s : WorkerPool T R) (acts : List (PoolAction T R)) : Option (WorkerPool T R) :=
  match runTrace f s acts with
  | .next s' => some s'
  | _ => none

/-- A started pool over `Nat` tasks and results, for concrete
schedules: buffer capacity `buf`, one CPU, `k` workers, parent context
already cancelled iff `pd`. -/
def poolNN (buf : Nat) (k : Int) (pd : Bool) : WorkerPool Nat Nat :=
  start (WithWorkers (NewWorkerPool 1 pd buf) k)

/-- Task function used in concrete schedules: doubles its input,
never fails. -/
def dbl : Bool → Nat → ExecResult Nat :=
  fun _ n => .normal (2 * n) none

/-- Task function used for the C9 schedule: returns an incremented
value together with an error, as a Go task function may. -/
def errAfterInc : Bool → Nat → ExecResult Nat :=
  fun _ n => .normal (n + 1) (some (.taskErr "boom"))

/-- C1: evaluation of the code at the failing input.  One task is
accepted by `Submit` (capacity-1 buffer, one worker still blocked in
its outer select), then `GracefulStop` runs.  Its task-channel
pre-close check (pool.go lines 182-192) receives the still-queued task
with `ok == true`, discards it, and closes the channel; the worker then
sees a closed, drained task channel and exits without executing
anything; `GracefulStop` closes the result stream.  Final state: 1
accepted task, result stream closed, and zero Result entries ever
published on it - the claim requires exactly 1. -/
theorem C1_graceful_drop_eval :
    (afterRun dbl (poolNN 1 1 false)
        [.submitOk 5, .gracefulCloseTask, .workerObserveClosed 0, .gracefulFinish]).map
      (fun s => (s.accepted, s.published, s.resultChan.closed))
      = some (1, [], true) := by
  decide

/-- C2: evaluation of the code at the failing input.  The pool is built
from an already-cancelled caller context (as in the repository's own
test of this situation) with an empty capacity-10 task buffer, so in
`Submit`'s select (pool.go lines 107-114) the `<-ctx.Done()` case and
the send case are both ready and Go picks one at random.  The schedule
in which the send case wins is therefore legal: `Submit(999)` returns
`true` and enqueues the task even though the lifecycle context is
cancelled - the claim requires `false` and no enqueue. -/
theorem C2_submit_after_cancel_eval :
    ctxDone (poolNN 10 1 true) = true ∧
    (afterRun dbl (poolNN 10 1 true) [.submitOk 999]).map
      (fun s => (s.accepted, s.taskChan.buf)) = some (1, [999]) := by
  decide

/-- C4: evaluation of the code at the failing input.  Two tasks are
executed and published with no consumer draining the stream, then
`Stop` is called twice.  The first `Stop`'s pre-close check receives
(and discards) one buffered result and closes the result channel,
leaving the second result in the buffer of a now-closed channel.  The
second `Stop`'s check then receives that buffered result with
`ok == true` - a closed channel keeps delivering its buffered elements
- concludes the channel is open, and calls `close` on the
already-closed channel: a runtime panic.  The claim requires that a
close of an already-closed channel is never attempted. -/
theorem C4_double_close_eval :
    runTrace dbl (poolNN 2 1 false)
      [.submitOk 1, .submitOk 2, .workerDequeue 0, .workerRun 0, .workerPublish 0,
       .workerDequeue 0, .workerRun 0, .workerPublish 0,
       .stopCancel, .workerObserveDone 0, .stopFinish, .stopCancel, .stopFinish]
      = .goPanic := by
  decide

/-- C5 counterexample: the claim says tasks still sitting in the queue
when `Stop` cancels the lifecycle are abandoned (not executed).  Here
task 5 is accepted and still queued when `Stop`'s `cancel()` runs, yet
the worker's outer select (pool.go lines 62-71) - in which both
`<-ctx.Done()` and the dequeue are ready - may take the dequeue case,
and the publish select may likewise take the send case, so the queued
task is executed and its result delivered to a consumer after
cancellation. -/
theorem C5_queued_task_executes_after_cancel :
    (afterRun dbl (poolNN 10 1 false)
        [.submitOk 5, .stopCancel, .workerDequeue 0, .workerRun 0, .workerPublish 0,
         .consumerRecv, .workerObserveDone 0, .stopFinish]).map
      (fun s => (s.cancelled, s.received, s.taskChan.buf))
      = some (true, [⟨10, none⟩], []) := by
  decide

/-- C9 counterexample: a Result published on the stream for a failed
task carries the task function's returned value verbatim, not the zero
value - both fields are populated, refuting "a failure Result carries
no meaningful success value" (formalised: a published Result with
`Err ≠ none` has `Value = default`).  The task function returns
`(n + 1, error)`; the published failure Result holds Value 5. -/
theorem C9_failure_result_keeps_value :
    (afterRun errAfterInc (poolNN 10 1 false)
        [.submitOk 4, .workerDequeue 0, .workerRun 0, .workerPublish 0]).map
      (fun s => s.published) = some [⟨5, some (.taskErr "boom")⟩] ∧
    (⟨5, some (.taskErr "boom")⟩ : Result Nat).Err ≠ none ∧
    (⟨5, some (.taskErr "boom")⟩ : Result Nat).Value ≠ default := by
  decide

theorem allExited_phase {T R : Type} {s : WorkerPool T R} {i : Nat} {w : WorkerPhase T R}
    (hall : allExited s = true) (h : s.workers[i]? = some w) : w = .exited := by
  obtain ⟨hlt, hget⟩ := List.getElem?_eq_some.mp h
  have hmem : w ∈ s.workers := hget ▸ List.getElem_mem hlt
  have := (List.all_eq_true.mp hall) w hmem
  cases w <;> simp [isExited] at this ⊢

theorem step_workers_length {T R : Type} [Inhabited R] (f : Bool → T → ExecResult R)
    (s s' : WorkerPool T R) (a : PoolAction T R) (h : step f s a = .next s') :
    s'.workers.length = s.workers.length := by
  cases a <;> simp only [step] at h <;> (repeat' split at h) <;>
    (try cases h) <;> simp [List.length_set]

theorem step_numWorkers {T R : Type} [Inhabited R] (f : Bool → T → ExecResult R)
    (s s' : WorkerPool T R) (a : PoolAction T R) (h : step f s a = .next s') :
    s'.numWorkers = s.numWorkers := by
  cases a <;> simp only [step] at h <;> (repeat' split at h) <;>
    (try cases h) <;> simp

theorem step_allExited {T R : Type} [Inhabited R] (f : Bool → T → ExecResult R)
    (s s' : WorkerPool T R) (a : PoolAction T R)
    (hall : allExited s = true) (h : step f s a = .next s') : allExited s' = true := by
  cases a <;> simp only [step] at h <;> (repeat' split at h) <;> (try cases h) <;>
    first
      | exact hall
      | (have hph := allExited_phase hall (by assumption); simp at hph)

theorem runTrace_workers_length {T R : Type} [Inhabited R] (f : Bool → T → ExecResult R)
    (s s' : WorkerPool T R) (acts : List (PoolAction T R))
    (h : runTrace f s acts = .next s') : s'.workers.length = s.workers.length := by
  induction acts generalizing s with
  | nil =>
      simp only [runTrace] at h
      cases h
      rfl
  | cons a rest ih =>
      simp only [runTrace] at h
      split at h
      case _ s1 heq => exact (ih s1 h).trans (step_workers_length f s s1 a heq)
      case _ => exact absurd h (by simp)
      case _ => exact absurd h (by simp)

theorem runTrace_allExited {T R : Type} [Inhabited R] (f : Bool → T → ExecResult R)
    (s s' : WorkerPool T R) (acts : List (PoolAction T R))
    (hall : allExited s = true) (h : runTrace f s acts = .next s') : allExited s' = true := by
  induction acts generalizing s with
  | nil =>
      simp only [runTrace] at h
      cases h
      exact hall
  | cons a rest ih =>
      simp only [runTrace] at h
      split at h
      case _ s1 heq => exact ih s1 (step_allExited f s s1 a hall heq) h
      case _ => exact absurd h (by simp)
      case _ => exact absurd h (by simp)

theorem runningCount_of_allExited {T R : Type} {s : WorkerPool T R}
    (hall : allExited s = true) : runningCount s = 0 := by
  rw [runningCount, List.countP_eq_zero]
  intro w hmem
  have := (List.all_eq_true.mp hall) w hmem
  cases w <;> simp [isExited, isRunning] at this ⊢

/-- The deterministic entry of `SubmitWait` (pool.go lines 120-125):
once the lifecycle context is done, `SubmitWait` returns the
cancellation error straight away, before any channel operation, so the
task is never enqueued and the task function is never invoked for it. -/
theorem submitWait_early_return {T R : Type} (s : WorkerPool T R) (h : ctxDone s = true) :
    submitWaitCheck (T := T) (R := R) s = .earlyErr .ctxCanceled := by
  simp [submitWaitCheck, ctxErr, h]

/-- C7: `NewWorkerPool(ctx, bufferSize)` creates task and result
channels whose capacity is exactly `bufferSize` (0 included), empty and
open; derives the lifecycle context as a cancellable child of the
caller's context, so the pool's context is done exactly when the
caller's context is done or the pool's own cancel was called - in
particular cancelling the caller's context makes the pool's context
done; and sets the worker count to the host's logical CPU count with a
floor of 1. -/
theorem C7_construction {T R : Type} [Inhabited R] (f : Bool → T → ExecResult R)
    (numCPU : Int) (pd : Bool) (buf : Nat) :
    (NewWorkerPool numCPU pd buf : WorkerPool T R).taskChan = ⟨[], false, buf⟩ ∧
    (NewWorkerPool numCPU pd buf : WorkerPool T R).resultChan = ⟨[], false, buf⟩ ∧
    (NewWorkerPool numCPU pd buf : WorkerPool T R).numWorkers = max 1 numCPU ∧
    ctxDone (NewWorkerPool numCPU pd buf : WorkerPool T R) = pd ∧
    (∀ s : WorkerPool T R, ctxDone s = (s.parentDone || s.cancelled)) ∧
    (∀ s : WorkerPool T R,
      step f s .parentCancel = .next { s with parentDone := true } ∧
      ctxDone { s with parentDone := true } = true) := by
  refine ⟨rfl, rfl, ?_, ?_, fun s => rfl, fun s => ⟨rfl, ?_⟩⟩
  · simp only [NewWorkerPool]
    rcases lt_or_le numCPU 1 with h | h
    · rw [if_pos h, max_eq_left h.le]
    · rw [if_neg (not_lt.mpr h), max_eq_right h]
  · simp [ctxDone, NewWorkerPool]
  · simp [ctxDone]

/-- C8: the worker-count invariant.  `WithWorkers p n` is exactly
"set the count if `n > 0`, otherwise return the pool unchanged" (the Go
method returns its receiver, so chaining works in both branches);
`NewWorkerPool` establishes `numWorkers ≥ 1`; `WithWorkers` preserves
it; and no transition of the running system (`step`) nor `start` ever
changes `numWorkers`. -/
theorem C8_worker_count_invariant {T R : Type} [Inhabited R] (f : Bool → T → ExecResult R) :
    (∀ (p : WorkerPool T R) (n : Int),
        WithWorkers p n = if 0 < n then { p with numWorkers := n } else p) ∧
    (∀ (numCPU : Int) (pd : Bool) (buf : Nat),
        1 ≤ (NewWorkerPool numCPU pd buf : WorkerPool T R).numWorkers) ∧
    (∀ (p : WorkerPool T R) (n : Int),
        1 ≤ p.numWorkers → 1 ≤ (WithWorkers p n).numWorkers) ∧
    (∀ (s s' : WorkerPool T R) (a : PoolAction T R),
        step f s a = .next s' → s'.numWorkers = s.numWorkers) ∧
    (∀ p : WorkerPool T R, (start p).numWorkers = p.numWorkers) := by
  refine ⟨fun p n => rfl, ?_, ?_, step_numWorkers f, fun p => rfl⟩
  · intro numCPU pd buf
    simp only [NewWorkerPool]
    split <;> omega
  · intro p n h
    rw [WithWorkers]
    split
    · next hn => simpa using hn
    · exact h

/-- C8 witness: a concrete pool whose construction gives a positive
worker count, preserved by a no-op `WithWorkers (-3)`. -/
theorem C8_worker_count_invariant_witness :
    1 ≤ (WithWorkers (NewWorkerPool 4 false 10 : WorkerPool Nat Nat) (-3)).numWorkers :=
  (C8_worker_count_invariant dbl).2.2.1 _ (-3) ((C8_worker_count_invariant dbl).2.1 4 false 10)

/-- C10: concurrency bound.  `start` spawns exactly `k` workers (one
`WorkerPhase` per goroutine) when the pool was configured with
`WithWorkers k`, `k > 0`; each worker holds at most one task (its
phase); and along every schedule the number of workers currently
mid-execution inside the task function never exceeds `k`. -/
theorem C10_concurrency_bound {T R : Type} [Inhabited R]
    (numCPU : Int) (pd : Bool) (buf : Nat) (k : Int) (hk : 0 < k)
    (f : Bool → T → ExecResult R) (acts : List (PoolAction T R)) (s' : WorkerPool T R)
    (h : runTrace f (start (WithWorkers (NewWorkerPool numCPU pd buf) k)) acts = .next s') :
    (start (WithWorkers (NewWorkerPool numCPU pd buf) k) : WorkerPool T R).workers.length
      = k.toNat ∧
    runningCount s' ≤ k.toNat := by
  have hlen : (start (WithWorkers (NewWorkerPool numCPU pd buf) k) :
      WorkerPool T R).workers.length = k.toNat := by
    simp only [start, WithWorkers, if_pos hk, List.length_replicate]
  refine ⟨hlen, ?_⟩
  have h2 := runTrace_workers_length f _ s' acts h
  calc runningCount s' ≤ s'.workers.length := List.countP_le_length isRunning
    _ = k.toNat := by rw [h2, hlen]

/-- C10 witness: a two-worker pool; after an empty schedule the number
of tasks mid-execution is at most 2. -/
theorem C10_concurrency_bound_witness :
    (start (WithWorkers (NewWorkerPool 1 false 1 : WorkerPool Nat Nat) 2)).workers.length
      = (2 : Int).toNat ∧
    runningCount (start (WithWorkers (NewWorkerPool 1 false 1 : WorkerPool Nat Nat) 2))
      ≤ (2 : Int).toNat :=
  C10_concurrency_bound 1 false 1 2 (by decide) dbl [] _ rfl

/-- C5 (amended): the effect frame of `Stop`.  `Stop` cancels the
lifecycle context (line 162); its `wg.Wait()` (line 163) completes only
once every worker has exited, and a worker holding an in-flight task is
always allowed to finish executing it; the result-channel pre-close
check then closes the result stream when it was not already closed (at
the cost of one buffered result, hence the `tail`); the task queue
channel is untouched - neither closed nor emptied - so queued tasks
remain in it; and from the completed `Stop` state no schedule ever has
a worker mid-execution again, so tasks still queued at that point are
never executed. -/
theorem C5_stop_effect_frame {T R : Type} [Inhabited R] (f : Bool → T → ExecResult R)
    (s : WorkerPool T R) (hall : allExited s = true) (hopen : s.resultChan.closed = false) :
    runTrace f s [.stopCancel, .stopFinish] =
      .next { s with cancelled := true
                     resultChan :=
                       { s.resultChan with buf := s.resultChan.buf.tail, closed := true } } ∧
    (∀ s₂ : WorkerPool T R, allExited s₂ = false → step f s₂ .stopFinish = .notEnabled) ∧
    (∀ (s₂ : WorkerPool T R) (j : Nat) (t : T), s₂.workers[j]? = some (.running t) →
        step f s₂ (.workerRun j) ≠ .notEnabled) ∧
    (∀ (acts : List (PoolAction T R)) (s'' : WorkerPool T R),
        runTrace f
          { s with cancelled := true
                   resultChan :=
                     { s.resultChan with buf := s.resultChan.buf.tail, closed := true } }
          acts = .next s'' →
        allExited s'' = true ∧ runningCount s'' = 0) := by
  refine ⟨?_, ?_, ?_, ?_⟩
  · have hall' : allExited { s with cancelled := true } = true := hall
    cases hbuf : s.resultChan.buf with
    | nil => simp [runTrace, step, hall', checkClose, hbuf, hopen]
    | cons r rs => simp [runTrace, step, hall', checkClose, hbuf, hopen]
  · intro s₂ h
    simp [step, h]
  · intro s₂ j t h
    simp [step, h]
  · intro acts s'' h
    have hall2 : allExited
        { s with cancelled := true
                 resultChan :=
                   { s.resultChan with buf := s.resultChan.buf.tail, closed := true } }
        = true := hall
    have := runTrace_allExited f _ s'' acts hall2 h
    exact ⟨this, runningCount_of_allExited this⟩

/-- Concrete post-shutdown pool for the C5 witness: one exited worker,
an undelivered buffered result, a task left in the queue. -/
def stoppedPool : WorkerPool Nat Nat :=
  { taskChan := ⟨[7], false, 10⟩
    resultChan := ⟨[⟨4, none⟩], false, 10⟩
    parentDone := false
    cancelled := false
    numWorkers := 1
    workers := [.exited]
    received := []
    published := [⟨4, none⟩]
    accepted := 2 }

/-- C5 witness: the amended Stop frame at a concrete state. -/
theorem C5_stop_effect_frame_witness :
    allExited stoppedPool = true ∧ stoppedPool.resultChan.closed = false ∧
    (runTrace dbl stoppedPool [.stopCancel, .stopFinish] =
      .next { stoppedPool with
                cancelled := true
                resultChan :=
                  { stoppedPool.resultChan with
                      buf := stoppedPool.resultChan.buf.tail, closed := true } } ∧
    (∀ s₂ : WorkerPool Nat Nat, allExited s₂ = false → step dbl s₂ .stopFinish = .notEnabled) ∧
    (∀ (s₂ : WorkerPool Nat Nat) (j : Nat) (t : Nat), s₂.workers[j]? = some (.running t) →
        step dbl s₂ (.workerRun j) ≠ .notEnabled) ∧
    (∀ (acts : List (PoolAction Nat Nat)) (s'' : WorkerPool Nat Nat),
        runTrace dbl
          { stoppedPool with
              cancelled := true
              resultChan :=
                { stoppedPool.resultChan with
                    buf := stoppedPool.resultChan.buf.tail, closed := true } }
          acts = .next s'' →
        allExited s'' = true ∧ runningCount s'' = 0)) :=
  ⟨by decide, by decide, C5_stop_effect_frame dbl stoppedPool (by decide) (by decide)⟩

/-- C6: the pre-close "already closed?" checks are receives, so on an
open, non-empty channel they dequeue and discard exactly the head
element before closing.  `Stop`'s result-channel check (lines 165-176)
consumes one pending Result, which is then in neither the buffer nor
any consumer's hands; `GracefulStop`'s task-channel check (lines
181-192) consumes one queued task, which is then no longer available to
any worker; everything else in the state is untouched. -/
theorem C6_preclose_check_consumes {T R : Type} [Inhabited R] (f : Bool → T → ExecResult R)
    (s : WorkerPool T R) (r : Result R) (rs : List (Result R)) (t : T) (ts : List T)
    (hall : allExited s = true)
    (hro : s.resultChan.closed = false) (hrb : s.resultChan.buf = r :: rs)
    (hto : s.taskChan.closed = false) (htb : s.taskChan.buf = t :: ts) :
    step f s .stopFinish =
      .next { s with resultChan := { s.resultChan with buf := rs, closed := true } } ∧
    step f s .gracefulCloseTask =
      .next { s with taskChan := { s.taskChan with buf := ts, closed := true } } := by
  constructor
  · simp [step, hall, checkClose, hrb, hro]
  · simp [step, checkClose, htb, hto]

/-- C6 witness: the checks at the concrete state `stoppedCheckPool`. -/
def stoppedCheckPool : WorkerPool Nat Nat :=
  { taskChan := ⟨[7, 8], false, 10⟩
    resultChan := ⟨[⟨4, none⟩, ⟨6, none⟩], false, 10⟩
    parentDone := false
    cancelled := false
    numWorkers := 1
    workers := [.exited]
    received := []
    published := [⟨4, none⟩, ⟨6, none⟩]
    accepted := 4 }

theorem C6_preclose_check_consumes_witness :
    step dbl stoppedCheckPool .stopFinish =
      .next { stoppedCheckPool with
                resultChan :=
                  { stoppedCheckPool.resultChan with buf := [⟨6, none⟩], closed := true } } ∧
    step dbl stoppedCheckPool .gracefulCloseTask =
      .next { stoppedCheckPool with
                taskChan := { stoppedCheckPool.taskChan with buf := [8], closed := true } } :=
  C6_preclose_check_consumes dbl stoppedCheckPool ⟨4, none⟩ [⟨6, none⟩] 7 [8]
    (by decide) (by decide) (by decide) (by decide) (by decide)

/-- C9 (amended): what a worker publishes for a task is exactly
`handleExec` of the task outcome: a success Result (`Err = none`)
carries the returned value and no error; a recovered panic yields a
Result whose `Value` is the zero value of `R` and whose `Err` is the
panic error; but a task-returned error yields a Result carrying
verbatim *both* the error and whatever value the task function returned
alongside it - the Go `Result` is a product type, and the value field
of such a failure Result is not cleared. -/
theorem C9_result_tagging {T R : Type} [Inhabited R] (f : Bool → T → ExecResult R) :
    (∀ (s : WorkerPool T R) (i : Nat) (t : T), s.workers[i]? = some (.running t) →
        step f s (.workerRun i) =
          .next { s with
                    workers := s.workers.set i (.publishing (handleExec (f (ctxDone s) t))) }) ∧
    (∀ m : String, (handleExec (.panicked m) : Result R)
        = ⟨default, some (.panicMsg ("panic in worker: " ++ m))⟩) ∧
    (∀ (v : R) (e : Option GoError), handleExec (.normal v e) = ⟨v, e⟩) := by
  refine ⟨?_, fun m => rfl, fun v e => rfl⟩
  intro s i t h
  simp [step, h]

/-- C9 witness: the publishing step at a concrete running worker. -/
def runningPool : WorkerPool Nat Nat :=
  { taskChan := ⟨[], false, 10⟩
    resultChan := ⟨[], false, 10⟩
    parentDone := false
    cancelled := false
    numWorkers := 1
    workers := [.running 3]
    received := []
    published := []
    accepted := 1 }

theorem C9_result_tagging_witness :
    step dbl runningPool (.workerRun 0) =
      .next { runningPool with
                workers := runningPool.workers.set 0
                  (.publishing (handleExec (dbl (ctxDone runningPool) 3))) } :=
  (C9_result_tagging dbl).1 runningPool 0 3 (by decide)

theorem runTrace_cons {T R : Type} [Inhabited R] (f : Bool → T → ExecResult R)
    (s s1 : WorkerPool T R) (a : PoolAction T R) (acts : List (PoolAction T R))
    (h : step f s a = .next s1) : runTrace f s (a :: acts) = runTrace f s1 acts := by
  simp only [runTrace, h]

@[simp]
theorem ctxDone_mk {T R : Type} (tc : GoChan T) (rc : GoChan (Result R)) (pd cl : Bool)
    (nw : Int) (ws : List (WorkerPhase T R)) (rcv pub : List (Result R)) (acc : Nat) :
    ctxDone (⟨tc, rc, pd, cl, nw, ws, rcv, pub, acc⟩ : WorkerPool T R) = (pd || cl) := rfl

/-- C3: panic isolation.  A worker that dequeues a task whose execution
panics publishes exactly one failure Result for it - `handleExec`
intercepts the panic and turns it into a Result carrying the textual
description `"panic in worker: " ++ msg` - the worker returns to the
top of its loop, and the very same worker then dequeues and executes
the next task to success.  Moreover no invocation of the task function
can ever make a step panic (`workerRun` never yields `goPanic`): the
fault never propagates out of the worker. -/
theorem C3_panic_isolation {T R : Type} [Inhabited R] (f : Bool → T → ExecResult R)
    (s : WorkerPool T R) (i : Nat) (t t' : T) (rest : List T) (msg : String) (v : R)
    (hw : s.workers[i]? = some .idle)
    (hq : s.taskChan.buf = t :: t' :: rest)
    (hopen : s.resultChan.closed = false)
    (hroom : s.resultChan.buf.length + 1 < s.resultChan.cap)
    (hpanic : f (ctxDone s) t = .panicked msg)
    (hok : f (ctxDone s) t' = .normal v none) :
    ∃ s', runTrace f s
        [.workerDequeue i, .workerRun i, .workerPublish i,
         .workerDequeue i, .workerRun i, .workerPublish i] = .next s' ∧
      s'.published = s.published ++
        [⟨default, some (.panicMsg ("panic in worker: " ++ msg))⟩, ⟨v, none⟩] ∧
      s'.workers[i]? = some .idle ∧
      s'.resultChan.closed = false ∧
      (∀ (s₂ : WorkerPool T R) (j : Nat), step f s₂ (.workerRun j) ≠ .goPanic) := by
  have hlt : i < s.workers.length := (List.getElem?_eq_some.mp hw).1
  have hroom1 : s.resultChan.buf.length < s.resultChan.cap := Nat.lt_of_succ_lt hroom
  have hpanic' : f (s.parentDone || s.cancelled) t = .panicked msg := by
    rw [ctxDone] at hpanic; exact hpanic
  have hok' : f (s.parentDone || s.cancelled) t' = .normal v none := by
    rw [ctxDone] at hok; exact hok
  refine ⟨{ s with
      workers := s.workers.set i .idle
      taskChan := { s.taskChan with buf := rest }
      resultChan := { s.resultChan with buf := s.resultChan.buf ++
        [⟨default, some (.panicMsg ("panic in worker: " ++ msg))⟩, ⟨v, none⟩] }
      published := s.published ++
        [⟨default, some (.panicMsg ("panic in worker: " ++ msg))⟩, ⟨v, none⟩] },
    ?_, rfl, ?_, hopen, ?_⟩
  · simp [runTrace, step, hw, hq, hlt, hpanic', hok', handleExec, hopen, hroom1, hroom,
      List.getElem?_set_self, List.length_set, List.set_set, List.append_assoc]
  · simp [List.getElem?_set_self, hlt]
  · intro s₂ j
    simp only [step]
    split <;> simp

/-- Task function for the C3 witness: panics on input 42, succeeds
otherwise (the repository's own panic-recovery test uses input 42). -/
def panicTaskFn : Bool → Nat → ExecResult Nat :=
  fun _ n => if n = 42 then .panicked "boom 42" else .normal n none

/-- Concrete pool for the C3 witness: one idle worker, tasks 42 (will
panic) and 3 (will succeed) queued. -/
def panicPool : WorkerPool Nat Nat :=
  { taskChan := ⟨[42, 3], false, 10⟩
    resultChan := ⟨[], false, 10⟩
    parentDone := false
    cancelled := false
    numWorkers := 1
    workers := [.idle]
    received := []
    published := []
    accepted := 2 }

/-- C3 witness: panic isolation at the concrete pool `panicPool`. -/
theorem C3_panic_isolation_witness :
    (panicPool.workers[0]? = some .idle ∧
     panicPool.taskChan.buf = 42 :: 3 :: [] ∧
     panicPool.resultChan.closed = false ∧
     panicPool.resultChan.buf.length + 1 < panicPool.resultChan.cap ∧
     panicTaskFn (ctxDone panicPool) 42 = .panicked "boom 42" ∧
     panicTaskFn (ctxDone panicPool) 3 = .normal 3 none) ∧
    (∃ s', runTrace panicTaskFn panicPool
        [.workerDequeue 0, .workerRun 0, .workerPublish 0,
         .workerDequeue 0, .workerRun 0, .workerPublish 0] = .next s' ∧
      s'.published = panicPool.published ++
        [⟨default, some (.panicMsg ("panic in worker: " ++ "boom 42"))⟩, ⟨3, none⟩] ∧
      s'.workers[0]? = some .idle ∧
      s'.resultChan.closed = false ∧
      (∀ (s₂ : WorkerPool Nat Nat) (j : Nat), step panicTaskFn s₂ (.workerRun j) ≠ .goPanic)) :=
  ⟨⟨by decide, by decide, by decide, by decide, by decide, by decide⟩,
   C3_panic_isolation panicTaskFn panicPool 0 42 3 [] "boom 42" 3
     (by decide) (by decide) (by decide) (by decide) (by decide) (by decide)⟩
